import Mathlib

/-!
Shallow embedding of the footprint posting service (src/app.py) and proofs
about its create / list / soft-delete operations.

Modelling conventions:
  * A row of the `footprints` table is a `Row`; the SQLite state is a `DB`
    holding the rows in insertion order plus the AUTOINCREMENT sequence
    counter (`seq`): the next assigned id is `seq + 1`, and `seq` is never
    decreased, matching `INTEGER PRIMARY KEY AUTOINCREMENT`.
  * Optional JSON fields are `Option String`; Python truthiness of such a
    field (`not data.get(k)`) is `falsy`.
  * `base64.b64decode` is an oracle `decode` carried in the request
    environment `Env`; `none` models a raised `binascii.Error`.
  * `int(time.time())` and `uuid.uuid4().hex[:8]` are the `now` and `rand`
    fields of `Env`.
  * A handler that answers a 500 error page is modelled as `none` /
    a distinguished error value; the DB helpers themselves never fail.
-/

namespace Footprint

/-- One row of the `footprints` table (src/app.py, `init_db`, lines 44-55). -/
structure Row where
  id : Nat
  username : String
  content : Option String
  image_url : Option String
  timestamp : Nat
  ip_address : Option String
  user_agent : Option String
  is_deleted : Bool
deriving DecidableEq

/-- The persistent state: rows in insertion order plus the AUTOINCREMENT
sequence counter. -/
structure DB where
  rows : List Row
  seq : Nat
deriving DecidableEq

def emptyDB : DB := { rows := [], seq := 0 }

/-- Python truthiness of an optional JSON string field: absent, `null` and
`""` are falsy. -/
def falsy : Option String → Bool
  | none => true
  | some s => s.isEmpty

/-- `needle` is a prefix of `hay` (Python `str.startswith`). -/
def isPrefixCh : List Char → List Char → Bool
  | [], _ => true
  | _ :: _, [] => false
  | a :: as, b :: bs => a == b && isPrefixCh as bs

/-- `needle` occurs as a contiguous substring of `hay` (Python `in`). -/
def containsSub (needle : List Char) : List Char → Bool
  | [] => isPrefixCh needle []
  | c :: cs => isPrefixCh needle (c :: cs) || containsSub needle cs

/-- Python `s.split(',', 1)` when it yields exactly two parts: the text
before the first comma and everything after it; `none` when `s` has no
comma (then the two-target unpacking in `save_image` raises `ValueError`). -/
def splitComma : List Char → Option (List Char × List Char)
  | [] => none
  | c :: cs =>
    if c = ',' then some ([], cs)
    else
      match splitComma cs with
      | none => none
      | some p => some (c :: p.1, p.2)

/-- Extension inference of `save_image` (src/app.py lines 83-90): the header
is probed for `png`, then `jpeg`/`jpg`, then `gif`, and defaults to `png`. -/
def extOf (header : List Char) : List Char :=
  if containsSub "png".data header then "png".data
  else if containsSub "jpeg".data header || containsSub "jpg".data header then "jpg".data
  else if containsSub "gif".data header then "gif".data
  else "png".data

/-- Per-request environment: server clock, random filename suffix, the
base64 decoder oracle, and the client provenance taken from the request. -/
structure Env where
  now : Nat
  rand : List Char
  decode : List Char → Option (List Nat)
  remote_addr : Option String
  user_agent : String

/-- `save_image` (src/app.py lines 72-104). Returns the stored reference
path together with the decoded bytes written to disk, or `none` when the
payload is empty, lacks the `data:image/` marker, has no comma, or fails
base64 decoding — every such failure is caught and converted to `None`. -/
def saveImage (env : Env) (payload : String) : Option (String × List Nat) :=
  if payload.isEmpty || !isPrefixCh "data:image/".data payload.data then none
  else
    match splitComma payload.data with
    | none => none
    | some hd =>
      match env.decode hd.2 with
      | none => none
      | some bytes =>
        let filename :=
          Nat.toDigits 10 env.now ++ "_".data ++ env.rand ++ ".".data ++ extOf hd.1
        some (String.mk ("/uploads/".data ++ filename), bytes)

/-- The JSON body of a POST `/api/footprints` request. -/
structure CreateReq where
  userName : Option String
  content : Option String
  imageData : Option String
deriving DecidableEq

/-- Outcome of `create_footprint`: one of the two 400 validation errors, or
the created row as re-read from the table and echoed to the client. -/
inductive CreateOutcome where
  | emptyAuthor
  | emptyBody
  | created (row : Row)
deriving DecidableEq

/-- `create_footprint` (src/app.py lines 170-230): validates `userName`,
then requires `content` or `imageData`, stores the image when `imageData`
is truthy (a failed `save_image` leaves `image_url` as `NULL`), inserts the
row and returns it re-read by its fresh id. -/
def createFootprint (env : Env) (db : DB) (req : CreateReq) : CreateOutcome × DB :=
  if falsy req.userName then (.emptyAuthor, db)
  else if falsy req.content && falsy req.imageData then (.emptyBody, db)
  else
    let image_url : Option String :=
      match req.imageData with
      | none => none
      | some s => if s.isEmpty then none else (saveImage env s).map Prod.fst
    let row : Row :=
      { id := db.seq + 1
        username := req.userName.getD ""
        content := req.content
        image_url := image_url
        timestamp := env.now
        ip_address := env.remote_addr
        user_agent := some env.user_agent
        is_deleted := false }
    (.created row, { rows := db.rows ++ [row], seq := db.seq + 1 })

/-- The rows the read paths see: `WHERE is_deleted = 0`. -/
def visibleRows (db : DB) : List Row := db.rows.filter (fun r => !r.is_deleted)

/-- `ORDER BY timestamp DESC`. -/
def timeDesc (a b : Row) : Prop := b.timestamp ≤ a.timestamp

instance : DecidableRel timeDesc := fun a b => Nat.decLe b.timestamp a.timestamp

instance : IsTotal Row timeDesc := ⟨fun a b => Nat.le_total b.timestamp a.timestamp⟩

instance : IsTrans Row timeDesc := ⟨fun _ _ _ h h' => Nat.le_trans h' h⟩

/-- The result multiset of the list query before paging: non-deleted rows
sorted by timestamp descending. -/
def orderedRows (db : DB) : List Row := (visibleRows db).insertionSort timeDesc

/-- SQLite `LIMIT ? OFFSET ?`: a negative OFFSET behaves as 0 and a
negative LIMIT means "no limit". -/
def sqlSlice (lim off : Int) (l : List Row) : List Row :=
  if lim < 0 then l.drop off.toNat else (l.drop off.toNat).take lim.toNat

/-- The JSON answer of GET `/api/footprints`: items plus the pagination
metadata block. -/
structure PageResult where
  items : List Row
  page : Int
  page_size : Int
  total : Nat
  total_pages : Int
deriving DecidableEq

/-- `offset = (page - 1) * page_size` (src/app.py line 123). -/
def offsetOf (page page_size : Int) : Int := (page - 1) * page_size

/-- `get_footprints` (src/app.py lines 116-167). `pageArg`/`pageSizeArg`
are the already-parsed query parameters; an absent parameter takes the
default (1 resp. 20). `none` models the 500 answer produced when
`total_pages` divides by zero; Python `//` is floor division, `Int.fdiv`. -/
def getFootprints (db : DB) (pageArg pageSizeArg : Option Int) : Option PageResult :=
  let page := pageArg.getD 1
  let pageSize := pageSizeArg.getD 20
  let offset := offsetOf page pageSize
  let total := (visibleRows db).length
  if pageSize = 0 then none
  else
    some
      { items := sqlSlice pageSize offset (orderedRows db)
        page := page
        page_size := pageSize
        total := total
        total_pages := Int.fdiv ((total : Int) + pageSize - 1) pageSize }

/-- `delete_footprint` (src/app.py lines 232-252): `UPDATE footprints SET
is_deleted = 1 WHERE id = ?`, then an unconditional success answer. -/
def deleteFootprint (db : DB) (fid : Nat) : Bool × DB :=
  (true,
    { db with
        rows := db.rows.map (fun r => if r.id = fid then { r with is_deleted := true } else r) })

/-- Well-formedness maintained by the store: row ids are pairwise distinct
and never exceed the sequence counter. -/
def DB.wf (db : DB) : Prop :=
  (db.rows.map Row.id).Nodup ∧ ∀ r ∈ db.rows, r.id ≤ db.seq

instance (db : DB) : Decidable db.wf := by
  unfold DB.wf; infer_instance

/-- A sequence of POST requests, each with its own environment; collects
the ids echoed by the successful creates. -/
def runCreates (db : DB) : List (Env × CreateReq) → List Nat × DB
  | [] => ([], db)
  | op :: rest =>
    match createFootprint op.1 db op.2 with
    | (CreateOutcome.created row, db1) =>
      let out := runCreates db1 rest
      (row.id :: out.1, out.2)
    | (_, db1) => runCreates db1 rest

/-! ### Helper lemmas -/

/-- `create_footprint` either rejects and leaves the table alone, or appends
exactly one row carrying the next sequence id. -/
theorem createFootprint_state (env : Env) (db : DB) (req : CreateReq) :
    (createFootprint env db req).2 = db ∨
    ∃ row, createFootprint env db req =
        (CreateOutcome.created row, { rows := db.rows ++ [row], seq := db.seq + 1 }) ∧
      row.id = db.seq + 1 := by
  unfold createFootprint
  by_cases h1 : falsy req.userName
  · simp [h1]
  · by_cases h2 : falsy req.content && falsy req.imageData
    · simp [h1, h2]
    · simp only [h1, h2, Bool.false_eq_true, if_false]
      right
      exact ⟨_, rfl, rfl⟩

/-- Membership in a `LIMIT/OFFSET` slice implies membership in the full
query result. -/
theorem mem_of_mem_sqlSlice (lim off : Int) (l : List Row) (r : Row)
    (h : r ∈ sqlSlice lim off l) : r ∈ l := by
  unfold sqlSlice at h
  by_cases hl : lim < 0
  · rw [if_pos hl] at h
    exact List.drop_subset _ _ h
  · rw [if_neg hl] at h
    exact List.drop_subset _ _ (List.take_subset _ _ h)

/-- Unfolded success shape of `get_footprints` for a nonzero page size. -/
theorem getFootprints_eq (db : DB) (pageArg pageSizeArg : Option Int)
    (hps : pageSizeArg.getD 20 ≠ 0) :
    getFootprints db pageArg pageSizeArg =
      some
        { items := sqlSlice (pageSizeArg.getD 20)
            (offsetOf (pageArg.getD 1) (pageSizeArg.getD 20)) (orderedRows db)
          page := pageArg.getD 1
          page_size := pageSizeArg.getD 20
          total := (visibleRows db).length
          total_pages :=
            Int.fdiv (((visibleRows db).length : Int) + pageSizeArg.getD 20 - 1)
              (pageSizeArg.getD 20) } := by
  unfold getFootprints
  simp only [hps, if_false, if_neg hps]

/-- The rows of the table after a soft delete are the rows before it with
the flag forced on the matching id. -/
theorem deleteFootprint_rows (db : DB) (fid : Nat) :
    (deleteFootprint db fid).2.rows =
      db.rows.map (fun r => if r.id = fid then { r with is_deleted := true } else r) := rfl

/-! ### C3: soft delete is an idempotent success -/

/-- C3: for every id, `delete_footprint` answers `success = true`; a second
call answers `true` again and leaves the state of the first call unchanged;
after a delete no list result of any page contains the id; and deleting an
id that is in no row leaves the state untouched. -/
theorem delete_idempotent_success (db : DB) (fid : Nat) (pageArg pageSizeArg : Option Int) :
    (deleteFootprint db fid).1 = true ∧
    (deleteFootprint (deleteFootprint db fid).2 fid).1 = true ∧
    (deleteFootprint (deleteFootprint db fid).2 fid).2 = (deleteFootprint db fid).2 ∧
    (∀ res, getFootprints (deleteFootprint db fid).2 pageArg pageSizeArg = some res →
      ∀ r ∈ res.items, r.id ≠ fid) ∧
    ((∀ r ∈ db.rows, r.id ≠ fid) → (deleteFootprint db fid).2 = db) := by
  refine ⟨rfl, rfl, ?_, ?_, ?_⟩
  · unfold deleteFootprint
    simp only [List.map_map]
    congr 1
    apply List.map_congr_left
    intro r _
    by_cases h : r.id = fid <;> simp [Function.comp, h]
  · intro res hres r hr
    have hps : pageSizeArg.getD 20 ≠ 0 := by
      intro h0
      unfold getFootprints at hres
      simp only [h0, if_pos] at hres
      exact Option.noConfusion hres
    rw [getFootprints_eq _ _ _ hps] at hres
    have hres' := Option.some.inj hres
    subst hres'
    have hmem : r ∈ orderedRows (deleteFootprint db fid).2 := mem_of_mem_sqlSlice _ _ _ r hr
    have hvis : r ∈ visibleRows (deleteFootprint db fid).2 :=
      (List.perm_insertionSort timeDesc _).mem_iff.mp hmem
    rw [visibleRows, deleteFootprint_rows] at hvis
    have hvis' := List.mem_filter.mp hvis
    obtain ⟨r0, hr0, hr0eq⟩ := List.mem_map.mp hvis'.1
    by_cases hid : r0.id = fid
    · rw [if_pos hid] at hr0eq
      rw [← hr0eq] at hvis'
      simp at hvis'
    · rw [if_neg hid] at hr0eq
      rw [← hr0eq]
      exact hid
  · intro hnone
    unfold deleteFootprint
    have : db.rows.map (fun r => if r.id = fid then { r with is_deleted := true } else r)
        = db.rows := by
      have := List.map_congr_left (l := db.rows)
        (f := fun r => if r.id = fid then { r with is_deleted := true } else r) (g := id)
        (fun r hrmem => by simp [hnone r hrmem])
      simpa using this
    simp [this]

/-! ### C10: soft delete only flips the flag, nothing is removed -/

/-- C10: soft delete keeps the row count and the id sequence, and rewrites
each row pointwise: every field other than `is_deleted` is copied, the flag
of rows with a different id is copied, the flag of the matching id is set;
moreover a create only appends to the table, so no core operation ever
removes a row. -/
theorem delete_frame (db : DB) (fid : Nat) (env : Env) (req : CreateReq) :
    (deleteFootprint db fid).2.rows.length = db.rows.length ∧
    (deleteFootprint db fid).2.seq = db.seq ∧
    List.Forall₂
      (fun r r' =>
        r'.id = r.id ∧ r'.username = r.username ∧ r'.content = r.content ∧
        r'.image_url = r.image_url ∧ r'.timestamp = r.timestamp ∧
        r'.ip_address = r.ip_address ∧ r'.user_agent = r.user_agent ∧
        (r.id ≠ fid → r'.is_deleted = r.is_deleted) ∧ (r.id = fid → r'.is_deleted = true))
      db.rows (deleteFootprint db fid).2.rows ∧
    List.IsPrefix db.rows (createFootprint env db req).2.rows := by
  refine ⟨by simp [deleteFootprint_rows], rfl, ?_, ?_⟩
  · rw [deleteFootprint_rows]
    rw [List.forall₂_map_right_iff]
    rw [List.forall₂_same]
    intro r _
    by_cases h : r.id = fid <;> simp [h]
  · rcases createFootprint_state env db req with hs | ⟨row, hs, _⟩
    · rw [hs]
    · rw [hs]
      exact List.prefix_append db.rows [row]

/-! ### C4: the validation of `create_footprint` -/

/-- C4: the create rejects with the empty-author 400 exactly when `userName`
is absent or empty, rejects with the empty-body 400 exactly when the author
passed but both `content` and `imageData` are absent or empty, and with a
non-empty author and at least one of `content`/`imageData` non-empty it
appends exactly one new row. -/
theorem create_validation (env : Env) (db : DB) (req : CreateReq) :
    ((createFootprint env db req).1 = CreateOutcome.emptyAuthor ↔ falsy req.userName = true) ∧
    ((createFootprint env db req).1 = CreateOutcome.emptyBody ↔
      (falsy req.userName = false ∧ falsy req.content = true ∧ falsy req.imageData = true)) ∧
    ((falsy req.userName = false ∧ (falsy req.content = false ∨ falsy req.imageData = false)) →
      ∃ row, createFootprint env db req =
        (CreateOutcome.created row, { rows := db.rows ++ [row], seq := db.seq + 1 })) := by
  unfold createFootprint
  by_cases h1 : falsy req.userName
  · simp [h1]
  · by_cases h2 : falsy req.content
    · by_cases h3 : falsy req.imageData
      · simp [h1, h2, h3]
      · refine ⟨by simp [h1, h2, h3], by simp [h1, h2, h3], fun _ => ?_⟩
        simp only [h2, h3, Bool.and_false, Bool.false_eq_true, if_false]
        simp [h1]
    · refine ⟨by simp [h1, h2], by simp [h1, h2], fun _ => ?_⟩
      simp only [h2, Bool.false_and, Bool.false_eq_true, if_false]
      simp [h1]

/-- A fixed request environment used for the concrete evaluations; its
base64 oracle fails on every input, as `base64.b64decode` does on `"A"`:
a lone base64 character raises `binascii.Error` (one data character more
than a multiple of four cannot be decoded). -/
def env0 : Env :=
  { now := 5, rand := "ab".data, decode := fun _ => none,
    remote_addr := some "127.0.0.1", user_agent := "UA" }

/-- A create request carrying only an image payload whose base64 body is
the single character `"A"`, on which `base64.b64decode` raises:
validation passes, the image store fails. -/
def req0 : CreateReq :=
  { userName := some "bob", content := none, imageData := some "data:image/png;base64,A" }

/-- The row that `create_footprint env0 emptyDB req0` inserts. -/
def row0 : Row :=
  { id := 1, username := "bob", content := none, image_url := none, timestamp := 5,
    ip_address := some "127.0.0.1", user_agent := some "UA", is_deleted := false }

/-! ### C1: the content-or-image creation invariant fails on decode failure -/

/-- C1 counterexample: a request with empty `content` and a non-empty but
undecodable `imageData` passes validation, yet the row it inserts has empty
`content` and a NULL `image_url` — the claimed invariant is violated. -/
theorem create_invariant_counterexample :
    falsy req0.content = true ∧ falsy req0.imageData = false ∧
    (createFootprint env0 emptyDB req0).2.rows.map (fun r => (falsy r.content, r.image_url))
      = [(true, none)] := by decide

/-- C1 (amended): every row inserted by a create has non-empty `content` or
a non-NULL `image_url`, except when the request supplied an image payload
that `save_image` failed to store while `content` was empty — in that one
case the row is inserted with neither. -/
theorem create_invariant_amended (env : Env) (db : DB) (req : CreateReq) (row : Row)
    (h : (createFootprint env db req).1 = CreateOutcome.created row) :
    (falsy row.content = false ∨ row.image_url ≠ none) ∨
    (falsy req.content = true ∧ falsy req.imageData = false ∧
      saveImage env (req.imageData.getD "") = none ∧
      falsy row.content = true ∧ row.image_url = none) := by
  unfold createFootprint at h
  by_cases h1 : falsy req.userName
  · simp [h1] at h
  · by_cases h2 : falsy req.content && falsy req.imageData
    · simp [h1, h2] at h
    · simp only [h1, h2, Bool.false_eq_true, if_false, CreateOutcome.created.injEq] at h
      subst h
      by_cases hc : falsy req.content
      · have hi : falsy req.imageData = false := by
          cases hival : falsy req.imageData
          · rfl
          · rw [hc, hival] at h2; simp at h2
        rcases hid : req.imageData with _ | s
        · rw [hid] at hi; simp [falsy] at hi
        · rw [hid] at hi
          have hne : s.isEmpty = false := by simpa [falsy] using hi
          rcases hsv : saveImage env s with _ | p
          · right
            refine ⟨hc, hi, by simpa [hid] using hsv, hc, ?_⟩
            simp [hid, hne, hsv]
          · left; right
            simp [hid, hne, hsv]
      · left; left; simpa using hc

/-- Witness for the amended C1 at the concrete inputs of the counterexample
request: the decode-failure escape hatch of the disjunction is reached. -/
theorem create_invariant_amended_witness :
    (falsy row0.content = false ∨ row0.image_url ≠ none) ∨
    (falsy req0.content = true ∧ falsy req0.imageData = false ∧
      saveImage env0 (req0.imageData.getD "") = none ∧
      falsy row0.content = true ∧ row0.image_url = none) :=
  create_invariant_amended env0 emptyDB req0 row0 (by decide)

/-! ### C6: the image store never fails the request -/

/-- C6: `save_image` converts every failure into `None`: an empty payload,
a payload without the `data:image/` marker, a payload without a comma (the
two-target unpacking raises, caught), and a base64 decode error all yield
`None`; and a `None` reference never blocks the create — a validated
request with a non-empty image payload is still inserted, with NULL
`image_url`, when the store fails. -/
theorem save_image_never_fails (env : Env) (payload : String) (db : DB) (req : CreateReq) :
    (payload.isEmpty = true → saveImage env payload = none) ∧
    (isPrefixCh "data:image/".data payload.data = false → saveImage env payload = none) ∧
    (splitComma payload.data = none → saveImage env payload = none) ∧
    (∀ header dat, splitComma payload.data = some (header, dat) → env.decode dat = none →
      saveImage env payload = none) ∧
    (falsy req.userName = false → falsy req.imageData = false →
      saveImage env (req.imageData.getD "") = none →
      ∃ row, (createFootprint env db req).1 = CreateOutcome.created row ∧
        row.image_url = none) := by
  refine ⟨?_, ?_, ?_, ?_, ?_⟩
  · intro h; unfold saveImage; rw [h]; simp
  · intro h; unfold saveImage; rw [h]; simp
  · intro h
    unfold saveImage
    rw [h]
    by_cases hg : payload.isEmpty || !isPrefixCh "data:image/".data payload.data <;> simp [hg]
  · intro header dat hsplit hdec
    unfold saveImage
    rw [hsplit]
    by_cases hg : payload.isEmpty || !isPrefixCh "data:image/".data payload.data <;>
      simp [hg, hdec]
  · intro hu hi hsv
    rcases hid : req.imageData with _ | s
    · rw [hid] at hi; simp [falsy] at hi
    · rw [hid] at hi
      have hne : s.isEmpty = false := by simpa [falsy] using hi
      rw [hid] at hsv
      simp only [Option.getD_some] at hsv
      unfold createFootprint
      rw [hu]
      have h2 : (falsy req.content && falsy req.imageData) = false := by
        rw [hid]; simp [falsy, hne]
      rw [h2]
      simp only [Bool.false_eq_true, if_false]
      exact ⟨_, rfl, by simp [hid, hne, hsv]⟩

/-- Witness for C6 at the counterexample request: every hypothesis is
discharged at `env0` / `req0`, whose payload is non-empty, marked, comma-
separated, and carries the undecodable base64 body `"A"`. -/
theorem save_image_never_fails_witness :
    saveImage env0 "data:image/png;base64,A" = none ∧
    (∃ row, (createFootprint env0 emptyDB req0).1 = CreateOutcome.created row ∧
      row.image_url = none) := by
  refine ⟨?_, ?_⟩
  · exact (save_image_never_fails env0 "data:image/png;base64,A" emptyDB req0).2.2.2.1
      "data:image/png;base64".data "A".data (by decide) (by decide)
  · exact (save_image_never_fails env0 "data:image/png;base64,A" emptyDB req0).2.2.2.2
      (by decide) (by decide) (by decide)

/-! ### C2: out-of-range paging parameters are neither rejected nor clamped -/

/-- A visible row used by the concrete paging evaluations. -/
def row1 : Row :=
  { id := 1, username := "alice", content := some "hi", image_url := none, timestamp := 10,
    ip_address := none, user_agent := some "", is_deleted := false }

/-- A one-row store. -/
def db1 : DB := { rows := [row1], seq := 1 }

/-- C2 counterexample: the request `page=0, page_size=20` is not rejected,
the echoed page is the raw 0 rather than the documented default 1, and the
offset passed to the query is the negative `(0 - 1) * 20`. -/
theorem negative_offset_counterexample :
    offsetOf 0 20 = -20 ∧
    getFootprints db1 (some 0) (some 20) =
      some { items := [row1], page := 0, page_size := 20, total := 1, total_pages := 1 } := by
  decide

/-- C2 (amended): `get_footprints` applies the defaults only to absent
parameters; a supplied `page < 1` with `page_size ≥ 1` is neither rejected
nor clamped — the negative offset `(page - 1) * page_size` is silently
passed to the query, where SQLite treats it as 0, so the first
`page_size` rows are answered under the raw page number. -/
theorem no_clamp_negative_offset (db : DB) (page pageSize : Int)
    (hpage : page < 1) (hps : 1 ≤ pageSize) :
    offsetOf page pageSize < 0 ∧
    getFootprints db (some page) (some pageSize) =
      some
        { items := (orderedRows db).take pageSize.toNat
          page := page
          page_size := pageSize
          total := (visibleRows db).length
          total_pages :=
            Int.fdiv (((visibleRows db).length : Int) + pageSize - 1) pageSize } := by
  have hoff : offsetOf page pageSize < 0 := by
    unfold offsetOf
    exact mul_neg_of_neg_of_pos (by omega) (by omega)
  refine ⟨hoff, ?_⟩
  rw [getFootprints_eq db (some page) (some pageSize) (by simp; omega)]
  simp only [Option.getD_some]
  have hslice : sqlSlice pageSize (offsetOf page pageSize) (orderedRows db)
      = (orderedRows db).take pageSize.toNat := by
    unfold sqlSlice
    rw [if_neg (by omega), Int.toNat_of_nonpos (le_of_lt hoff), List.drop_zero]
  rw [hslice]

/-- Witness for the amended C2 at the counterexample inputs. -/
theorem no_clamp_negative_offset_witness :
    offsetOf 0 20 < 0 ∧
    getFootprints db1 (some 0) (some 20) =
      some
        { items := (orderedRows db1).take (20 : Int).toNat
          page := 0
          page_size := 20
          total := (visibleRows db1).length
          total_pages :=
            Int.fdiv (((visibleRows db1).length : Int) + 20 - 1) 20 } :=
  no_clamp_negative_offset db1 0 20 (by decide) (by decide)

/-! ### C5: the ordered extension-inference policy of the image store -/

/-- C5: on every stored payload the reference filename carries the
extension inferred from the header by the ordered fallback: `png` when the
header mentions png; otherwise `jpg` when it mentions jpeg or jpg;
otherwise `gif` when it mentions gif; otherwise the default `png`. -/
theorem save_image_ext_policy (env : Env) (payload : String) (header dat : List Char)
    (ref : String) (bytes : List Nat)
    (hsplit : splitComma payload.data = some (header, dat))
    (hok : saveImage env payload = some (ref, bytes)) :
    ref.data = "/uploads/".data ++ Nat.toDigits 10 env.now ++ "_".data ++ env.rand
      ++ ".".data ++ extOf header ∧
    (containsSub "png".data header = true → extOf header = "png".data) ∧
    (containsSub "png".data header = false →
      (containsSub "jpeg".data header || containsSub "jpg".data header) = true →
      extOf header = "jpg".data) ∧
    (containsSub "png".data header = false →
      (containsSub "jpeg".data header || containsSub "jpg".data header) = false →
      containsSub "gif".data header = true → extOf header = "gif".data) ∧
    (containsSub "png".data header = false →
      (containsSub "jpeg".data header || containsSub "jpg".data header) = false →
      containsSub "gif".data header = false → extOf header = "png".data) := by
  refine ⟨?_, ?_, ?_, ?_, ?_⟩
  · unfold saveImage at hok
    rw [hsplit] at hok
    by_cases hg : payload.isEmpty || !isPrefixCh "data:image/".data payload.data
    · rw [if_pos hg] at hok
      exact Option.noConfusion hok
    · rw [if_neg hg] at hok
      rcases hdec : env.decode dat with _ | bs
      · simp [hdec] at hok
      · simp only [hdec, Option.some.injEq, Prod.mk.injEq] at hok
        rw [← hok.1]
        simp [List.append_assoc]
  · intro h; unfold extOf; simp [h]
  · intro h h'; unfold extOf; simp [h, h']
  · intro h h' h''; unfold extOf; simp [h, h', h'']
  · intro h h' h''; unfold extOf; simp [h, h', h'']

/-- A request environment whose base64 oracle answers the byte `[0]` on
every input, as `base64.b64decode` does on `"AA"`; it exercises the
success path of the image store. -/
def env1 : Env :=
  { now := 5, rand := "ab".data, decode := fun _ => some [0],
    remote_addr := none, user_agent := "UA" }

/-- Witness for C5 on a stored png payload: the reference is
`/uploads/5_ab.png`. -/
theorem save_image_ext_policy_witness :
    ("/uploads/5_ab.png" : String).data
      = "/uploads/".data ++ Nat.toDigits 10 env1.now ++ "_".data ++ env1.rand
        ++ ".".data ++ extOf "data:image/png;base64".data ∧
    (containsSub "png".data "data:image/png;base64".data = true →
      extOf "data:image/png;base64".data = "png".data) ∧
    (containsSub "png".data "data:image/png;base64".data = false →
      (containsSub "jpeg".data "data:image/png;base64".data
        || containsSub "jpg".data "data:image/png;base64".data) = true →
      extOf "data:image/png;base64".data = "jpg".data) ∧
    (containsSub "png".data "data:image/png;base64".data = false →
      (containsSub "jpeg".data "data:image/png;base64".data
        || containsSub "jpg".data "data:image/png;base64".data) = false →
      containsSub "gif".data "data:image/png;base64".data = true →
      extOf "data:image/png;base64".data = "gif".data) ∧
    (containsSub "png".data "data:image/png;base64".data = false →
      (containsSub "jpeg".data "data:image/png;base64".data
        || containsSub "jpg".data "data:image/png;base64".data) = false →
      containsSub "gif".data "data:image/png;base64".data = false →
      extOf "data:image/png;base64".data = "png".data) :=
  save_image_ext_policy env1 "data:image/png;base64,AA" "data:image/png;base64".data
    "AA".data "/uploads/5_ab.png" [0] (by decide) (by decide)

/-! ### C7: AUTOINCREMENT ids grow strictly -/

/-- Full case split of a create: either a rejection that leaves the state
alone, or the append of one row carrying id `seq + 1`. -/
theorem createFootprint_cases (env : Env) (db : DB) (req : CreateReq)
    (oc : CreateOutcome) (db1 : DB) (h : createFootprint env db req = (oc, db1)) :
    (db1 = db ∧ ∀ row, oc ≠ CreateOutcome.created row) ∨
    (∃ row, oc = CreateOutcome.created row ∧ row.id = db.seq + 1 ∧
      db1 = { rows := db.rows ++ [row], seq := db.seq + 1 }) := by
  unfold createFootprint at h
  by_cases h1 : falsy req.userName
  · simp only [h1, if_true, Prod.mk.injEq] at h
    obtain ⟨h2, h3⟩ := h
    subst h2
    subst h3
    exact Or.inl ⟨rfl, fun row hcon => CreateOutcome.noConfusion hcon⟩
  · by_cases h2 : falsy req.content && falsy req.imageData
    · simp only [h1, h2, Bool.false_eq_true, if_false, if_true, Prod.mk.injEq] at h
      obtain ⟨h3, h4⟩ := h
      subst h3
      subst h4
      exact Or.inl ⟨rfl, fun row hcon => CreateOutcome.noConfusion hcon⟩
    · simp only [h1, h2, Bool.false_eq_true, if_false, Prod.mk.injEq] at h
      obtain ⟨h3, h4⟩ := h
      subst h3
      subst h4
      exact Or.inr ⟨_, rfl, rfl, rfl⟩

/-- C7: over any sequence of requests run against a well-formed store, the
ids echoed by the successful creates are strictly increasing in order of
creation, each strictly exceeds every id already in the store, and the
store stays well-formed. -/
theorem create_ids_monotone (ops : List (Env × CreateReq)) (db : DB) (hwf : db.wf) :
    (runCreates db ops).1.Pairwise (· < ·) ∧
    (∀ r ∈ db.rows, ∀ j ∈ (runCreates db ops).1, r.id < j) ∧
    ((runCreates db ops).2).wf := by
  induction ops generalizing db with
  | nil => exact ⟨List.Pairwise.nil, by simp [runCreates], hwf⟩
  | cons op rest ih =>
    rcases hc : createFootprint op.1 db op.2 with ⟨oc, db1⟩
    rcases createFootprint_cases op.1 db op.2 oc db1 hc with ⟨hdb, hne⟩ | ⟨row, hoc, hid, hdb⟩
    · cases oc with
      | created row => exact absurd rfl (hne row)
      | emptyAuthor =>
        subst hdb
        simp only [runCreates, hc]
        exact ih _ hwf
      | emptyBody =>
        subst hdb
        simp only [runCreates, hc]
        exact ih _ hwf
    · subst hoc
      subst hdb
      simp only [runCreates, hc]
      have hwf1 : DB.wf { rows := db.rows ++ [row], seq := db.seq + 1 } := by
        constructor
        · rw [List.map_append, List.nodup_append]
          refine ⟨hwf.1, List.nodup_singleton _, ?_⟩
          intro a ha hb
          obtain ⟨r, hr, rfl⟩ := List.mem_map.mp ha
          have hle := hwf.2 r hr
          simp only [List.map_cons, List.map_nil, List.mem_singleton] at hb
          rw [hb, hid] at hle
          omega
        · intro r hr
          rcases List.mem_append.mp hr with h | h
          · exact Nat.le_succ_of_le (hwf.2 r h)
          · rw [List.mem_singleton] at h
            rw [h, hid]
      obtain ⟨ihA, ihB, ihC⟩ := ih _ hwf1
      have hrowmem : row ∈ ({ rows := db.rows ++ [row], seq := db.seq + 1 } : DB).rows :=
        List.mem_append.mpr (Or.inr (List.mem_singleton.mpr rfl))
      refine ⟨?_, ?_, ihC⟩
      · exact List.pairwise_cons.mpr ⟨fun j hj => ihB row hrowmem j hj, ihA⟩
      · intro r hr j hj
        rcases List.mem_cons.mp hj with hj1 | hj2
        · have := hwf.2 r hr
          omega
        · exact ihB r (List.mem_append.mpr (Or.inl hr)) j hj2

/-- A plain valid text-only create request. -/
def req1 : CreateReq := { userName := some "alice", content := some "hi", imageData := none }

/-- Two consecutive creates against the empty store. -/
def ops0 : List (Env × CreateReq) := [(env0, req1), (env0, req1)]

/-- Witness for C7: two creates on the empty store echo strictly
increasing ids and preserve well-formedness. -/
theorem create_ids_monotone_witness :
    (runCreates emptyDB ops0).1.Pairwise (· < ·) ∧
    (∀ r ∈ emptyDB.rows, ∀ j ∈ (runCreates emptyDB ops0).1, r.id < j) ∧
    ((runCreates emptyDB ops0).2).wf :=
  create_ids_monotone ops0 emptyDB (by decide)

/-! ### C8: the pagination metadata computes a true ceiling -/

/-- Floor division of natural casts agrees with `Int.fdiv`. -/
theorem fdiv_natCast (m n : Nat) : Int.fdiv (m : Int) (n : Int) = ((m / n : Nat) : Int) := by
  cases m with
  | zero => simp [Int.fdiv]
  | succ k => rfl

/-- `(t + p - 1) / p` over `ℕ` is the ceiling of the rational `t / p`. -/
theorem add_pred_div_eq_ceil (t p : Nat) (hp : 0 < p) :
    (t + p - 1) / p = Nat.ceil ((t : ℚ) / (p : ℚ)) := by
  refine eq_of_forall_ge_iff (fun c => ?_)
  rw [← Nat.ceilDiv_eq_add_pred_div, ceilDiv_le_iff_le_mul hp, Nat.ceil_le,
    div_le_iff₀ (by exact_mod_cast hp), mul_comm ((c : ℚ)) ((p : ℚ))]
  exact_mod_cast Iff.rfl

/-- C8: whenever `get_footprints` answers with a page size of at least 1,
the `total_pages` of the pagination block is the mathematical ceiling of
`total / page_size`. -/
theorem total_pages_is_ceil (db : DB) (pg ps : Int) (hps : 1 ≤ ps) (res : PageResult)
    (h : getFootprints db (some pg) (some ps) = some res) :
    res.total_pages = Int.ceil ((res.total : ℚ) / (ps : ℚ)) := by
  rw [getFootprints_eq db (some pg) (some ps) (by simp; omega)] at h
  have hres := Option.some.inj h
  subst hres
  simp only [Option.getD_some]
  obtain ⟨pn, rfl⟩ : ∃ pn : Nat, ps = (pn : Int) := ⟨ps.toNat, by omega⟩
  have hpn : 0 < pn := by exact_mod_cast hps
  set t := (visibleRows db).length with ht
  have hcast : ((t : Int) + (pn : Int) - 1) = (((t + pn - 1 : Nat)) : Int) := by
    have : 1 ≤ t + pn := by omega
    push_cast [Nat.cast_sub this]
    ring
  rw [hcast, fdiv_natCast, add_pred_div_eq_ceil t pn hpn]
  have hx : (0 : ℚ) ≤ (t : ℚ) / (pn : ℚ) := by positivity
  rw [Int.natCast_ceil_eq_ceil hx]
  congr 1

/-- The answer of a default list call on the empty store. -/
def pageRes0 : PageResult :=
  { items := [], page := 1, page_size := 20, total := 0, total_pages := 0 }

/-- Witness for C8 at the empty store with the default parameters. -/
theorem total_pages_is_ceil_witness :
    pageRes0.total_pages = Int.ceil ((pageRes0.total : ℚ) / ((20 : Int) : ℚ)) :=
  total_pages_is_ceil emptyDB 1 20 (by decide) pageRes0 (by decide)

/-! ### C9: consecutive pages are disjoint contiguous slices -/

/-- On a well-formed store the ids of the ordered query result are
pairwise distinct. -/
theorem orderedRows_ids_nodup (db : DB) (hwf : db.wf) :
    ((orderedRows db).map Row.id).Nodup := by
  have hsub : List.Sublist (visibleRows db) db.rows := List.filter_sublist _
  have hvis : ((visibleRows db).map Row.id).Nodup := (hsub.map Row.id).nodup hwf.1
  have hperm : List.Perm (orderedRows db) (visibleRows db) :=
    List.perm_insertionSort timeDesc (visibleRows db)
  exact ((hperm.map Row.id).nodup_iff).mpr hvis

/-- C9: the first and the second page of size `N ≥ 1` are contiguous slices
of one ordering — together they are exactly the first `2N` entries of the
ordered query result, they cover `min total 2N` items, a row id never
appears on both pages, and that ordering is exactly the non-deleted rows
sorted by timestamp descending. -/
theorem two_pages_slices (db : DB) (hwf : db.wf) (N : Int) (hN : 1 ≤ N)
    (r1 r2 : PageResult)
    (h1 : getFootprints db (some 1) (some N) = some r1)
    (h2 : getFootprints db (some 2) (some N) = some r2) :
    r1.items ++ r2.items = (orderedRows db).take (2 * N).toNat ∧
    (r1.items ++ r2.items).length = min r1.total (2 * N).toNat ∧
    (∀ a ∈ r1.items, ∀ b ∈ r2.items, a.id ≠ b.id) ∧
    (orderedRows db).Sorted timeDesc ∧
    List.Perm (orderedRows db) (visibleRows db) := by
  have hNz : N ≠ 0 := by omega
  rw [getFootprints_eq db (some 1) (some N) (by simpa using hNz)] at h1
  rw [getFootprints_eq db (some 2) (some N) (by simpa using hNz)] at h2
  have h1' := Option.some.inj h1
  have h2' := Option.some.inj h2
  subst h1'
  subst h2'
  simp only [Option.getD_some]
  have hoff1 : offsetOf 1 N = 0 := by unfold offsetOf; ring
  have hoff2 : offsetOf 2 N = N := by unfold offsetOf; ring
  have hi1 : sqlSlice N (offsetOf 1 N) (orderedRows db) = (orderedRows db).take N.toNat := by
    unfold sqlSlice
    rw [if_neg (by omega), hoff1]
    simp
  have hi2 : sqlSlice N (offsetOf 2 N) (orderedRows db)
      = ((orderedRows db).drop N.toNat).take N.toNat := by
    unfold sqlSlice
    rw [if_neg (by omega), hoff2]
  rw [hi1, hi2]
  have htoNat : (2 * N).toNat = N.toNat + N.toNat := by omega
  refine ⟨?_, ?_, ?_, List.sorted_insertionSort timeDesc (visibleRows db),
    List.perm_insertionSort timeDesc (visibleRows db)⟩
  · rw [htoNat, List.take_add]
  · rw [htoNat, ← List.take_add, List.length_take, Nat.min_comm]
    congr 1
    exact (List.perm_insertionSort timeDesc (visibleRows db)).length_eq
  · intro a ha b hb heq
    have hnd := orderedRows_ids_nodup db hwf
    have hsplitL : (orderedRows db).map Row.id
        = ((orderedRows db).take N.toNat).map Row.id
          ++ ((orderedRows db).drop N.toNat).map Row.id := by
      rw [← List.map_append, List.take_append_drop]
    rw [hsplitL] at hnd
    have hdisj := List.disjoint_of_nodup_append hnd
    apply hdisj (List.mem_map_of_mem Row.id ha)
    rw [heq]
    exact List.mem_map_of_mem Row.id (List.take_subset _ _ hb)

/-- A visible row with timestamp 1. -/
def rowT1 : Row :=
  { id := 1, username := "alice", content := some "old", image_url := none, timestamp := 1,
    ip_address := none, user_agent := some "", is_deleted := false }

/-- A visible row with timestamp 2. -/
def rowT2 : Row :=
  { id := 2, username := "bob", content := some "new", image_url := none, timestamp := 2,
    ip_address := none, user_agent := some "", is_deleted := false }

/-- A well-formed two-row store. -/
def db9 : DB := { rows := [rowT1, rowT2], seq := 2 }

/-- Page 1 of size 1 over `db9`. -/
def pageA : PageResult :=
  { items := [rowT2], page := 1, page_size := 1, total := 2, total_pages := 2 }

/-- Page 2 of size 1 over `db9`. -/
def pageB : PageResult :=
  { items := [rowT1], page := 2, page_size := 1, total := 2, total_pages := 2 }

/-- Witness for C9 with two rows and page size 1. -/
theorem two_pages_slices_witness :
    pageA.items ++ pageB.items = (orderedRows db9).take (2 * (1 : Int)).toNat ∧
    (pageA.items ++ pageB.items).length = min pageA.total (2 * (1 : Int)).toNat ∧
    (∀ a ∈ pageA.items, ∀ b ∈ pageB.items, a.id ≠ b.id) ∧
    (orderedRows db9).Sorted timeDesc ∧
    List.Perm (orderedRows db9) (visibleRows db9) :=
  two_pages_slices db9 (by decide) 1 (by decide) pageA pageB (by decide) (by decide)

/-! ### Concrete instances of the remaining operation theorems -/

/-- Witness for C3 at the one-row store and id 1. -/
theorem delete_idempotent_success_witness :
    (deleteFootprint db1 1).1 = true ∧
    (deleteFootprint (deleteFootprint db1 1).2 1).1 = true ∧
    (deleteFootprint (deleteFootprint db1 1).2 1).2 = (deleteFootprint db1 1).2 ∧
    (∀ res, getFootprints (deleteFootprint db1 1).2 none none = some res →
      ∀ r ∈ res.items, r.id ≠ 1) ∧
    ((∀ r ∈ db1.rows, r.id ≠ 1) → (deleteFootprint db1 1).2 = db1) :=
  delete_idempotent_success db1 1 none none

/-- Witness for C4 at a plain text-only request. -/
theorem create_validation_witness :
    ((createFootprint env0 emptyDB req1).1 = CreateOutcome.emptyAuthor ↔
      falsy req1.userName = true) ∧
    ((createFootprint env0 emptyDB req1).1 = CreateOutcome.emptyBody ↔
      (falsy req1.userName = false ∧ falsy req1.content = true ∧
        falsy req1.imageData = true)) ∧
    ((falsy req1.userName = false ∧
        (falsy req1.content = false ∨ falsy req1.imageData = false)) →
      ∃ row, createFootprint env0 emptyDB req1 =
        (CreateOutcome.created row, { rows := emptyDB.rows ++ [row], seq := emptyDB.seq + 1 })) :=
  create_validation env0 emptyDB req1

/-- Witness for C10 at the one-row store. -/
theorem delete_frame_witness :
    (deleteFootprint db1 1).2.rows.length = db1.rows.length ∧
    (deleteFootprint db1 1).2.seq = db1.seq ∧
    List.Forall₂
      (fun r r' =>
        r'.id = r.id ∧ r'.username = r.username ∧ r'.content = r.content ∧
        r'.image_url = r.image_url ∧ r'.timestamp = r.timestamp ∧
        r'.ip_address = r.ip_address ∧ r'.user_agent = r.user_agent ∧
        (r.id ≠ 1 → r'.is_deleted = r.is_deleted) ∧ (r.id = 1 → r'.is_deleted = true))
      db1.rows (deleteFootprint db1 1).2.rows ∧
    List.IsPrefix db1.rows (createFootprint env0 db1 req1).2.rows :=
  delete_frame db1 1 env0 req1

end Footprint
